import Mathlib

/-!
# iWatcher per-file processing pipeline: verification development

Shallow embedding of the iWatcher audio-transcription pipeline
(n8n workflow "iwatcher-gdrive-trigger"), as documented in the
repository's workflow summary and specified in spec.md: the chunker,
the transcript formatter, the summarizer fallback, the transcription
poll loop, the ingestion controller's stage sequencing, and the
workflow node graph with its two parallel delivery paths.
-/

namespace IWatcher

/-! ## Chunker -/

/-- Modelled from the spec: the "Build Notion Blocks" code node's chunking
logic (the node's source is not in the repository snapshot; the workflow
summary documents its behavior).  Deterministic fixed-width slicing by
character: block *i* is `text[i*maxSize : min((i+1)*maxSize, len(text))]`.
Text is modelled as a list of characters. -/
def splitChunks (s : List Char) (n : Nat) : List (List Char) :=
  if h : s = [] ∨ n = 0 then [] else s.take n :: splitChunks (s.drop n) n
termination_by s.length
decreasing_by
  simp only [not_or] at h
  have hpos : 0 < s.length := List.length_pos.mpr h.1
  simp only [List.length_drop]
  omega

theorem splitChunks_nil (n : Nat) : splitChunks [] n = [] := by
  rw [splitChunks]; simp

theorem splitChunks_zero (s : List Char) : splitChunks s 0 = [] := by
  rw [splitChunks]; simp

theorem splitChunks_of_ne (s : List Char) (n : Nat) (hs : s ≠ []) (hn : n ≠ 0) :
    splitChunks s n = s.take n :: splitChunks (s.drop n) n := by
  rw [splitChunks]
  simp [hs, hn]

/-- Concatenating the chunks in order restores the text exactly. -/
theorem splitChunks_flatten (s : List Char) (n : Nat) (hn : n ≠ 0) :
    (splitChunks s n).flatten = s := by
  by_cases hs : s = []
  · subst hs; simp [splitChunks_nil]
  · rw [splitChunks_of_ne s n hs hn]
    have ih := splitChunks_flatten (s.drop n) n hn
    simp [ih]
termination_by s.length
decreasing_by
  have hpos : 0 < s.length := List.length_pos.mpr hs
  have hn' : 0 < n := Nat.pos_of_ne_zero hn
  simp only [List.length_drop]
  omega

/-- The number of chunks is `ceil (len / n)`, i.e. `(len + n - 1) / n`. -/
theorem splitChunks_length (s : List Char) (n : Nat) (hn : n ≠ 0) :
    (splitChunks s n).length = (s.length + n - 1) / n := by
  by_cases hs : s = []
  · subst hs
    have : (n - 1) / n = 0 := Nat.div_eq_of_lt (by omega)
    simp [splitChunks_nil, this]
  · rw [splitChunks_of_ne s n hs hn]
    have ih := splitChunks_length (s.drop n) n hn
    have hpos : 0 < s.length := List.length_pos.mpr hs
    have hn' : 0 < n := Nat.pos_of_ne_zero hn
    simp only [List.length_cons, ih, List.length_drop]
    rcases le_or_lt s.length n with hle | hlt
    · have h1 : s.length - n = 0 := by omega
      have h2 : (s.length + n - 1) / n = 1 :=
        Nat.div_eq_of_lt_le (by omega) (by omega)
      rw [h1, h2]
      have : (n - 1) / n = 0 := Nat.div_eq_of_lt (by omega)
      simp [this]
    · have key : s.length + n - 1 = (s.length - n + n - 1) + n := by omega
      rw [key, Nat.add_div_right _ hn']
termination_by s.length
decreasing_by
  have hpos : 0 < s.length := List.length_pos.mpr hs
  have hn' : 0 < n := Nat.pos_of_ne_zero hn
  simp only [List.length_drop]
  omega

/-- Chunk `i` is exactly the slice of the text starting at `i*n`,
truncated to at most `n` characters. -/
theorem splitChunks_getElem? (s : List Char) (n : Nat) (hn : n ≠ 0) (i : Nat) :
    (splitChunks s n)[i]? =
      if i * n < s.length then some ((s.drop (i * n)).take n) else none := by
  induction i generalizing s with
  | zero =>
    by_cases hs : s = []
    · subst hs; simp [splitChunks_nil]
    · rw [splitChunks_of_ne s n hs hn]
      have hpos : 0 < s.length := List.length_pos.mpr hs
      simp [hpos]
  | succ i ih =>
    by_cases hs : s = []
    · subst hs; simp [splitChunks_nil]
    · rw [splitChunks_of_ne s n hs hn,
        show (i + 1) * n = i * n + n from by ring]
      have := ih (s.drop n)
      simp only [List.getElem?_cons_succ, this, List.length_drop, List.drop_drop]
      by_cases hc : i * n < s.length - n
      · rw [if_pos hc, if_pos (show i * n + n < s.length by omega),
          Nat.add_comm n (i * n)]
      · rw [if_neg hc, if_neg (show ¬ (i * n + n < s.length) by omega)]

/-! ## Data model -/

/-- One attributed speech segment, as returned by the transcription
provider: speaker label, start/end offsets (seconds), text. -/
structure Utterance where
  speaker : String
  start : Nat
  stop : Nat
  text : String
deriving DecidableEq, Repr

/-- A completed transcription: ordered utterances, confidence (percent),
total duration in milliseconds. -/
structure Transcript where
  utterances : List Utterance
  confidencePercent : Nat
  durationMs : Nat
deriving DecidableEq, Repr

/-- Terminal location of the source audio file. -/
inductive FileLifecycleState where
  | new | processing | completed | failed
deriving DecidableEq, Repr

/-! ## Transcript Formatter -/

/-- Zero-pad a number to two digits. -/
def pad2 (n : Nat) : String :=
  if n < 10 then "0" ++ toString n else toString n

/-- Modelled from the spec: one formatted line per utterance,
`[MM:SS] <speaker>: <text>`, minutes and seconds from the start offset,
speaker label passed through unchanged (matches the documented examples
`[00:15] Speaker A: text here`). -/
def renderLine (u : Utterance) : String :=
  "[" ++ pad2 (u.start / 60) ++ ":" ++ pad2 (u.start % 60) ++ "] "
    ++ u.speaker ++ ": " ++ u.text

/-- Insert an utterance into a list sorted by ascending start offset. -/
def insertByStart (u : Utterance) : List Utterance → List Utterance
  | [] => [u]
  | v :: vs => if u.start ≤ v.start then u :: v :: vs else v :: insertByStart u vs

/-- Sort utterances by ascending start offset (insertion sort). -/
def sortByStart : List Utterance → List Utterance
  | [] => []
  | u :: us => insertByStart u (sortByStart us)

/-- Modelled from the spec: the formatter emits, for each utterance in
ascending start-offset order, one rendered line. -/
def formatLines (us : List Utterance) : List String :=
  (sortByStart us).map renderLine

/-- Modelled from the spec: `Format(Transcript) → string`, the
newline-joined formatted lines. -/
def format (t : Transcript) : String :=
  String.intercalate "\n" (formatLines t.utterances)

theorem insertByStart_length (u : Utterance) (l : List Utterance) :
    (insertByStart u l).length = l.length + 1 := by
  induction l with
  | nil => rfl
  | cons v vs ih =>
    by_cases h : u.start ≤ v.start <;> simp [insertByStart, h, ih]

theorem insertByStart_perm (u : Utterance) (l : List Utterance) :
    (insertByStart u l).Perm (u :: l) := by
  induction l with
  | nil => exact List.Perm.refl _
  | cons v vs ih =>
    by_cases h : u.start ≤ v.start
    · simp [insertByStart, h]
    · simp only [insertByStart, if_neg h]
      exact (ih.cons v).trans (List.Perm.swap u v vs)

theorem insertByStart_sorted (u : Utterance) (l : List Utterance)
    (hl : l.Pairwise (fun a b => a.start ≤ b.start)) :
    (insertByStart u l).Pairwise (fun a b => a.start ≤ b.start) := by
  induction l with
  | nil => simp [insertByStart]
  | cons v vs ih =>
    rcases List.pairwise_cons.mp hl with ⟨hv, hvs⟩
    by_cases h : u.start ≤ v.start
    · simp only [insertByStart, if_pos h]
      refine List.pairwise_cons.mpr ⟨?_, hl⟩
      intro w hw
      rcases hw with _ | hw
      · exact h
      · exact le_trans h (hv _ (by assumption))
    · simp only [insertByStart, if_neg h]
      refine List.pairwise_cons.mpr ⟨?_, ih hvs⟩
      intro w hw
      have hw' := (insertByStart_perm u vs).mem_iff.mp hw
      rcases List.mem_cons.mp hw' with h2 | h2
      · subst h2; omega
      · exact hv _ h2

theorem sortByStart_perm (l : List Utterance) : (sortByStart l).Perm l := by
  induction l with
  | nil => exact List.Perm.refl _
  | cons u us ih =>
    exact (insertByStart_perm u (sortByStart us)).trans (ih.cons u)

theorem sortByStart_sorted (l : List Utterance) :
    (sortByStart l).Pairwise (fun a b => a.start ≤ b.start) := by
  induction l with
  | nil => simp [sortByStart]
  | cons u us ih => exact insertByStart_sorted u _ ih

theorem sortByStart_length (l : List Utterance) :
    (sortByStart l).length = l.length :=
  (sortByStart_perm l).length_eq

/-! ## Summarizer -/

/-- The ways the summarization provider can fail. -/
inductive ProviderError where
  | timeout | rateLimit | malformedResponse | authenticationFailure
deriving DecidableEq, Repr

/-- `SummaryResult`: tagged union `Ok(text) | Fallback(text)`. -/
inductive SummaryResult where
  | ok (text : String)
  | fallback (text : String)
deriving DecidableEq, Repr

/-- The text carried by a summary result. -/
def SummaryResult.text : SummaryResult → String
  | .ok t => t
  | .fallback t => t

/-- The placeholder emitted when summarization is unavailable. -/
def fallbackText : String :=
  "AI summary unavailable: summarization provider failed"

/-- Modelled from the spec: `Summarize(transcriptText) → SummaryResult`
(the OpenAI code node's source is not in the repository snapshot).  The
provider call is modelled by its result; on any provider error the
component returns `Fallback` with the placeholder text and never
propagates the error. -/
def summarize (providerResult : Except ProviderError String) : SummaryResult :=
  match providerResult with
  | .ok t => .ok t
  | .error _ => .fallback fallbackText

/-! ## Transcription Client poll loop -/

/-- Provider-reported status of an asynchronous transcription job. -/
inductive PollStatus where
  | queued | processing | completed | error
deriving DecidableEq, Repr

/-- Result of awaiting a transcription job. -/
inductive AwaitResult where
  | transcript | providerError | timeout
deriving DecidableEq, Repr

/-- Modelled from the spec: the polling loop (the workflow's
"Wait 30 Seconds → Get Result → Check Status" cycle; the loop's node
configuration is not in the repository snapshot).  `poll t` is the
provider status observed by the query issued at elapsed time `t`.
After sleeping `interval`, the loop queries; it stops on `completed`
or `error`, or, when elapsed time exceeds `deadline`, with `timeout`.
Returns (result, finish time, number of polls issued).  An `interval`
of zero is outside the contract and exits immediately as a timeout. -/
def awaitLoop (poll : Nat → PollStatus) (interval deadline elapsed : Nat) :
    AwaitResult × Nat × Nat :=
  match poll (elapsed + interval) with
  | .completed => (.transcript, elapsed + interval, 1)
  | .error => (.providerError, elapsed + interval, 1)
  | _ =>
    if h : deadline < elapsed + interval ∨ interval = 0 then
      (.timeout, elapsed + interval, 1)
    else
      let r := awaitLoop poll interval deadline (elapsed + interval)
      (r.1, r.2.1, r.2.2 + 1)
termination_by deadline - elapsed
decreasing_by
  simp only [not_or] at h
  omega

/-- Modelled from the spec: `AwaitCompletion(jobId, pollInterval,
deadline)` starts the poll loop at elapsed time zero. -/
def awaitCompletion (poll : Nat → PollStatus) (interval deadline : Nat) :
    AwaitResult × Nat × Nat :=
  awaitLoop poll interval deadline 0

theorem awaitLoop_bound (poll : Nat → PollStatus) (interval deadline : Nat)
    (hI : 0 < interval) :
    ∀ k elapsed, deadline - elapsed ≤ k → elapsed ≤ deadline →
      (awaitLoop poll interval deadline elapsed).2.1 ≤ deadline + interval ∧
      (awaitLoop poll interval deadline elapsed).2.2 ≤
        (deadline - elapsed) / interval + 1 := by
  intro k
  induction k with
  | zero =>
    intro elapsed h0 hle
    rw [awaitLoop]
    split
    · dsimp only
      exact ⟨by omega, Nat.le_add_left 1 _⟩
    · dsimp only
      exact ⟨by omega, Nat.le_add_left 1 _⟩
    · rw [dif_pos (Or.inl (by omega))]
      dsimp only
      exact ⟨by omega, Nat.le_add_left 1 _⟩
  | succ k ih =>
    intro elapsed hk hle
    rw [awaitLoop]
    split
    · dsimp only
      exact ⟨by omega, Nat.le_add_left 1 _⟩
    · dsimp only
      exact ⟨by omega, Nat.le_add_left 1 _⟩
    · by_cases hc : deadline < elapsed + interval ∨ interval = 0
      · rw [dif_pos hc]
        dsimp only
        exact ⟨by omega, Nat.le_add_left 1 _⟩
      · rw [dif_neg hc]
        dsimp only
        simp only [not_or] at hc
        have hc1 : elapsed + interval ≤ deadline := by omega
        have H := ih (elapsed + interval) (by omega) hc1
        refine ⟨H.1, ?_⟩
        have harg : deadline - elapsed - interval = deadline - (elapsed + interval) := by
          omega
        have hdiv : (deadline - elapsed) / interval =
            (deadline - (elapsed + interval)) / interval + 1 := by
          rw [Nat.div_eq_sub_div hI (by omega), harg]
        rw [hdiv]
        exact Nat.add_le_add_right H.2 1

/-! ## Ingestion Controller -/

/-- Immutable run-time configuration. -/
structure Config where
  pollIntervalSeconds : Nat := 30
  pollDeadlineSeconds : Nat := 600
  chunkMaxChars : Nat := 2000
deriving DecidableEq, Repr

/-- Pipeline stages, in sequencing order. -/
inductive Stage where
  | download | transcription | formatter | summarizer | chunker
  | dispatcher | finalizeStage
deriving DecidableEq, Repr

/-- Why the Transcription Client stage failed. -/
inductive TranscriptionError where
  | providerError | timeout
deriving DecidableEq, Repr

/-- The external collaborators' behavior for one run, supplied as data:
the download result, the transcription result, the summarization
provider's response, and the two sinks' success flags. -/
structure Oracles where
  downloadOk : Bool
  transcription : Except TranscriptionError Transcript
  summaryProvider : Except ProviderError String
  structuredOk : Bool
  flatOk : Bool

/-- The structured (Notion) sink's page: chunked summary and transcript. -/
structure StructuredPage where
  summaryBlocks : List (List Char)
  transcriptBlocks : List (List Char)
deriving DecidableEq, Repr

/-- The flat (Google Drive) sink's document: the unchunked full summary
and full transcript text, uploaded as a single write. -/
structure FlatDoc where
  summaryText : String
  transcriptText : String
deriving DecidableEq, Repr

/-- The observable outcome of one run: the stages that executed, what
each sink received, each sink's delivery outcome, and the source-file
moves applied. -/
structure RunResult where
  stages : List Stage
  structured : Option StructuredPage
  flat : Option FlatDoc
  structuredOutcome : Option Bool
  flatOutcome : Option Bool
  moves : List FileLifecycleState
deriving DecidableEq, Repr

/-- Modelled from the spec: `Finalize(run)`'s decision rule — a
transcript obtained means `Completed`, otherwise `Failed`. -/
def finalizeDecision (transcriptObtained : Bool) : FileLifecycleState :=
  if transcriptObtained then .completed else .failed

/-- Modelled from the spec: the Ingestion Controller's sequencing
(download → Transcription Client → Formatter → Summarizer → Chunker(×2)
→ Delivery Dispatcher → Lifecycle Manager).  A run that fails at any
stage before delivery skips all downstream stages and proceeds directly
to the Lifecycle Manager with a `Failed` verdict; the summarizer never
fails the run. -/
def runPipeline (cfg : Config) (o : Oracles) : RunResult :=
  if o.downloadOk = false then
    { stages := [.download, .finalizeStage]
      structured := none, flat := none
      structuredOutcome := none, flatOutcome := none
      moves := [finalizeDecision false] }
  else
    match o.transcription with
    | .error _ =>
      { stages := [.download, .transcription, .finalizeStage]
        structured := none, flat := none
        structuredOutcome := none, flatOutcome := none
        moves := [finalizeDecision false] }
    | .ok tr =>
      let transcriptText := format tr
      let summary := summarize o.summaryProvider
      let summaryBlocks := splitChunks summary.text.data cfg.chunkMaxChars
      let transcriptBlocks := splitChunks transcriptText.data cfg.chunkMaxChars
      { stages := [.download, .transcription, .formatter, .summarizer,
          .chunker, .dispatcher, .finalizeStage]
        structured := some ⟨summaryBlocks, transcriptBlocks⟩
        flat := some ⟨summary.text, transcriptText⟩
        structuredOutcome := some o.structuredOk
        flatOutcome := some o.flatOk
        moves := [finalizeDecision true] }

/-- Modelled from the spec: each detection event from the trigger starts
one full, independent run (the trigger connects directly to the download
step; there is no deduplication between detection and processing). -/
def processDetections (cfg : Config) (oracleOf : String → Oracles)
    (events : List String) : List RunResult :=
  events.map (fun f => runPipeline cfg (oracleOf f))

/-! ## Workflow node graph

The node graph of the n8n workflow, as drawn in the repository's
workflow-summary flow chart: a linear prefix from the trigger through
transcription and preparation, then two parallel paths — Path 1
(Google Drive): Convert to Binary → Save Text to Google Drive →
Restore File ID → Move to Completed; Path 2 (Notion): Build Notion
Blocks → Save to Notion. -/

/-- The workflow's nodes. -/
inductive Node where
  | trigger | downloadAudio | uploadToAssemblyAI | startTranscription
  | initializePolling | wait30 | getResult | checkStatus
  | processOpenAI | prepareData | createTextFileContent
  | convertToBinary | saveTextToGDrive | restoreFileId | moveToCompleted
  | buildNotionBlocks | saveToNotion
deriving DecidableEq, Repr, Fintype

/-- Direct predecessors of each node, from the flow chart.  The trigger
connects directly to Download Audio (the deduplication nodes were
removed); the poll-loop back edge from Check Status to Wait 30 Seconds
is dropped, keeping the forward flow. -/
def deps : Node → List Node
  | .trigger => []
  | .downloadAudio => [.trigger]
  | .uploadToAssemblyAI => [.downloadAudio]
  | .startTranscription => [.uploadToAssemblyAI]
  | .initializePolling => [.startTranscription]
  | .wait30 => [.initializePolling]
  | .getResult => [.wait30]
  | .checkStatus => [.getResult]
  | .processOpenAI => [.checkStatus]
  | .prepareData => [.processOpenAI]
  | .createTextFileContent => [.prepareData]
  | .convertToBinary => [.createTextFileContent]
  | .saveTextToGDrive => [.convertToBinary]
  | .restoreFileId => [.saveTextToGDrive]
  | .moveToCompleted => [.restoreFileId]
  | .buildNotionBlocks => [.createTextFileContent]
  | .saveToNotion => [.buildNotionBlocks]

/-- `reachesIn fuel a b`: node `a` is `b` itself or a (transitive)
predecessor of `b`, within `fuel` steps. -/
def reachesIn : Nat → Node → Node → Bool
  | 0, a, b => a == b
  | fuel + 1, a, b => a == b || (deps b).any (fun p => reachesIn fuel a p)

/-- `a` is an ancestor of (or equal to) `b` in the workflow graph.  The
graph has 17 nodes, so fuel 17 reaches everything reachable. -/
def isAncestor (a b : Node) : Bool := reachesIn 17 a b

/-- `execOk ok fuel n`: node `n` runs and succeeds, given per-node
success flags `ok` — a node succeeds when its own flag is set and every
direct predecessor succeeded. -/
def execOk (ok : Node → Bool) : Nat → Node → Bool
  | 0, _ => false
  | fuel + 1, n => ok n && (deps n).all (execOk ok fuel)

/-! ## Claim theorems -/

/-- C1: For every string `s` and every `maxSize n > 0`, `Split(s, n)`
produces exactly `ceil(len(s)/n)` blocks (zero when `s` is empty), every
block except possibly the last has length exactly `n`, block `i` equals
the character slice `s[i*n : min((i+1)*n, len(s))]`, and the in-order
concatenation of all blocks equals `s` exactly. -/
theorem chunker_split_correct (s : List Char) (n : Nat) (hn : 0 < n) :
    (splitChunks s n).length = (s.length + n - 1) / n ∧
    (s = [] → splitChunks s n = []) ∧
    (∀ i, i + 1 < (splitChunks s n).length →
      ∃ b, (splitChunks s n)[i]? = some b ∧ b.length = n) ∧
    (∀ i, i < (splitChunks s n).length →
      (splitChunks s n)[i]? =
        some ((s.drop (i * n)).take (min ((i + 1) * n) s.length - i * n))) ∧
    (splitChunks s n).flatten = s := by
  have hn' : n ≠ 0 := Nat.pos_iff_ne_zero.mp hn
  have hlen := splitChunks_length s n hn'
  have hmul : ∀ i : Nat, i < (splitChunks s n).length → i * n < s.length := by
    intro i hi
    rw [hlen] at hi
    have h1 : (i + 1) * n ≤ s.length + n - 1 :=
      (Nat.le_div_iff_mul_le hn).mp hi
    have h2 : (i + 1) * n = i * n + n := by ring
    omega
  refine ⟨hlen, fun hs => by rw [hs]; exact splitChunks_nil n, ?_, ?_, ?_⟩
  · intro i hi
    refine ⟨(s.drop (i * n)).take n, ?_, ?_⟩
    · rw [splitChunks_getElem? s n hn' i, if_pos (hmul i (by omega))]
    · rw [hlen] at hi
      have h1 : (i + 2) * n ≤ s.length + n - 1 :=
        (Nat.le_div_iff_mul_le hn).mp (by omega)
      have h2 : (i + 2) * n = i * n + 2 * n := by ring
      simp only [List.length_take, List.length_drop]
      omega
  · intro i hi
    rw [splitChunks_getElem? s n hn' i, if_pos (hmul i hi)]
    congr 1
    rw [List.take_eq_take]
    simp only [List.length_drop]
    have h2 : (i + 1) * n = i * n + n := by ring
    omega
  · exact splitChunks_flatten s n hn'

/-- C1 witness: the chunker theorem applied to the five-character string
"abcde" with block size 2. -/
theorem chunker_split_correct_witness :
    (splitChunks "abcde".data 2).length = ("abcde".data.length + 2 - 1) / 2 ∧
    ("abcde".data = [] → splitChunks "abcde".data 2 = []) ∧
    (∀ i, i + 1 < (splitChunks "abcde".data 2).length →
      ∃ b, (splitChunks "abcde".data 2)[i]? = some b ∧ b.length = 2) ∧
    (∀ i, i < (splitChunks "abcde".data 2).length →
      (splitChunks "abcde".data 2)[i]? =
        some (("abcde".data.drop (i * 2)).take
          (min ((i + 1) * 2) "abcde".data.length - i * 2))) ∧
    (splitChunks "abcde".data 2).flatten = "abcde".data :=
  chunker_split_correct "abcde".data 2 (by decide)

/-- C2: For every provider error during summarization, `Summarize` does
not propagate the error: it returns a `Fallback` result with non-empty
placeholder text, and the run still proceeds through all downstream
stages to Finalize. -/
theorem summarizer_never_fails_run (e : ProviderError) (cfg : Config)
    (o : Oracles) (t : Transcript) (hsp : o.summaryProvider = .error e)
    (hd : o.downloadOk = true) (htr : o.transcription = .ok t) :
    summarize o.summaryProvider = .fallback fallbackText ∧
    fallbackText ≠ "" ∧
    (runPipeline cfg o).stages =
      [.download, .transcription, .formatter, .summarizer, .chunker,
        .dispatcher, .finalizeStage] ∧
    Stage.finalizeStage ∈ (runPipeline cfg o).stages := by
  refine ⟨by rw [hsp]; rfl, by decide, ?_, ?_⟩
  · simp [runPipeline, hd, htr]
  · simp [runPipeline, hd, htr]

/-- C2 witness: the summarizer theorem applied to a concrete run whose
summarization provider times out. -/
theorem summarizer_never_fails_run_witness :
    summarize (Oracles.summaryProvider
        ⟨true, .ok ⟨[], 82, 661000⟩, .error .timeout, true, true⟩) =
      .fallback fallbackText ∧
    fallbackText ≠ "" ∧
    (runPipeline {} ⟨true, .ok ⟨[], 82, 661000⟩, .error .timeout, true, true⟩).stages =
      [.download, .transcription, .formatter, .summarizer, .chunker,
        .dispatcher, .finalizeStage] ∧
    Stage.finalizeStage ∈
      (runPipeline {} ⟨true, .ok ⟨[], 82, 661000⟩, .error .timeout, true, true⟩).stages :=
  summarizer_never_fails_run ProviderError.timeout {}
    ⟨true, .ok ⟨[], 82, 661000⟩, .error .timeout, true, true⟩
    ⟨[], 82, 661000⟩ rfl rfl rfl

/-- C3: Finalize's decision rule: a transcript obtained means the source
file transitions to `Completed`; a failed transcription stage or a failed
download means `Failed`; exactly one source-file transition occurs per
run, applied once, at the end. -/
theorem finalize_decision_rule (cfg : Config) (o : Oracles) :
    (∀ t, o.downloadOk = true → o.transcription = .ok t →
      (runPipeline cfg o).moves = [.completed]) ∧
    (o.downloadOk = false → (runPipeline cfg o).moves = [.failed]) ∧
    (∀ e, o.transcription = .error e → (runPipeline cfg o).moves = [.failed]) ∧
    (runPipeline cfg o).moves.length = 1 ∧
    (runPipeline cfg o).stages.getLast? = some .finalizeStage := by
  rcases hd : o.downloadOk with _ | _ <;> rcases htr : o.transcription with e | t <;>
    refine ⟨?_, ?_, ?_, ?_, ?_⟩ <;>
    simp [runPipeline, hd, htr, finalizeDecision]

/-- C3 witness: the decision rule applied to a concrete successful run. -/
theorem finalize_decision_rule_witness :
    (runPipeline {} ⟨true, .ok ⟨[], 82, 661000⟩, .ok "s", true, true⟩).moves =
      [FileLifecycleState.completed] :=
  (finalize_decision_rule {}
    ⟨true, .ok ⟨[], 82, 661000⟩, .ok "s", true, true⟩).1 ⟨[], 82, 661000⟩ rfl rfl

/-- C6: When the transcription provider reports an `error` status (or the
download step fails), no Formatter, Summarizer, Chunker, or Delivery
Dispatcher call occurs: the run skips all downstream stages, proceeds
directly to the Lifecycle Manager with a `Failed` verdict, and the file
moves to `Failed`. -/
theorem early_failure_skips_downstream (cfg : Config) (o : Oracles)
    (h : (∃ e, o.transcription = .error e) ∨ o.downloadOk = false) :
    Stage.formatter ∉ (runPipeline cfg o).stages ∧
    Stage.summarizer ∉ (runPipeline cfg o).stages ∧
    Stage.chunker ∉ (runPipeline cfg o).stages ∧
    Stage.dispatcher ∉ (runPipeline cfg o).stages ∧
    (runPipeline cfg o).structured = none ∧
    (runPipeline cfg o).flat = none ∧
    (runPipeline cfg o).stages.getLast? = some .finalizeStage ∧
    (runPipeline cfg o).moves = [.failed] := by
  rcases hd : o.downloadOk with _ | _
  · refine ⟨?_, ?_, ?_, ?_, ?_, ?_, ?_, ?_⟩ <;>
      simp [runPipeline, hd, finalizeDecision]
  · rcases h with ⟨e, htr⟩ | h
    · refine ⟨?_, ?_, ?_, ?_, ?_, ?_, ?_, ?_⟩ <;>
        simp [runPipeline, hd, htr, finalizeDecision]
    · rw [hd] at h; cases h

/-- C6 witness: a concrete run whose transcription provider reports an
`error` status. -/
theorem early_failure_skips_downstream_witness :
    Stage.formatter ∉
      (runPipeline {} ⟨true, .error .providerError, .ok "s", true, true⟩).stages ∧
    Stage.summarizer ∉
      (runPipeline {} ⟨true, .error .providerError, .ok "s", true, true⟩).stages ∧
    Stage.chunker ∉
      (runPipeline {} ⟨true, .error .providerError, .ok "s", true, true⟩).stages ∧
    Stage.dispatcher ∉
      (runPipeline {} ⟨true, .error .providerError, .ok "s", true, true⟩).stages ∧
    (runPipeline {} ⟨true, .error .providerError, .ok "s", true, true⟩).structured = none ∧
    (runPipeline {} ⟨true, .error .providerError, .ok "s", true, true⟩).flat = none ∧
    (runPipeline {} ⟨true, .error .providerError, .ok "s", true, true⟩).stages.getLast? =
      some .finalizeStage ∧
    (runPipeline {} ⟨true, .error .providerError, .ok "s", true, true⟩).moves =
      [FileLifecycleState.failed] :=
  early_failure_skips_downstream {}
    ⟨true, .error .providerError, .ok "s", true, true⟩
    (Or.inl ⟨TranscriptionError.providerError, rfl⟩)

/-- C4: For every polling run, `AwaitCompletion` terminates and returns
(or fails with `Timeout`) no later than `deadline + pollInterval` after
submission, and the number of poll iterations is bounded by the deadline
divided by the poll interval plus one. -/
theorem awaitCompletion_bounded (poll : Nat → PollStatus)
    (interval deadline : Nat) (hI : 0 < interval) :
    (awaitCompletion poll interval deadline).2.1 ≤ deadline + interval ∧
    (awaitCompletion poll interval deadline).2.2 ≤ deadline / interval + 1 := by
  have H := awaitLoop_bound poll interval deadline hI deadline 0
    (by omega) (by omega)
  simpa [awaitCompletion] using H

/-- C4 witness: a provider that never completes, polled every 30 seconds
against a 60-second deadline, returns by 90 seconds within 3 polls. -/
theorem awaitCompletion_bounded_witness :
    0 < 30 ∧
    ((awaitCompletion (fun _ => PollStatus.processing) 30 60).2.1 ≤ 60 + 30 ∧
     (awaitCompletion (fun _ => PollStatus.processing) 30 60).2.2 ≤ 60 / 30 + 1) :=
  ⟨by decide, awaitCompletion_bounded (fun _ => PollStatus.processing) 30 60 (by decide)⟩

/-- C7: For every transcript, `Format` emits exactly one output line per
utterance, the lines appear in non-decreasing start-offset order
regardless of the input order, and each line has the form
`[MM:SS] <speaker label>: <text>` with the start offset floor-divided
into zero-padded minutes and seconds and the speaker label passed
through unchanged. -/
theorem formatter_lines_correct (us : List Utterance) :
    (formatLines us).length = us.length ∧
    (sortByStart us).Perm us ∧
    (sortByStart us).Pairwise (fun a b => a.start ≤ b.start) ∧
    formatLines us = (sortByStart us).map renderLine ∧
    (∀ l, l ∈ formatLines us → ∃ u, u ∈ us ∧
      l = "[" ++ pad2 (u.start / 60) ++ ":" ++ pad2 (u.start % 60) ++ "] "
        ++ u.speaker ++ ": " ++ u.text) := by
  refine ⟨?_, sortByStart_perm us, sortByStart_sorted us, rfl, ?_⟩
  · rw [formatLines, List.length_map, sortByStart_length]
  · intro l hl
    rw [formatLines, List.mem_map] at hl
    rcases hl with ⟨u, hu, hul⟩
    exact ⟨u, (sortByStart_perm us).subset hu, hul.symm⟩

/-- C7 witness: two out-of-order utterances are rendered as two lines in
start-offset order. -/
theorem formatter_lines_correct_witness :
    (formatLines [⟨"Speaker B", 75, 80, "later"⟩, ⟨"Speaker A", 15, 20, "early"⟩]).length = 2 ∧
    ∃ u, u ∈ [Utterance.mk "Speaker B" 75 80 "later", Utterance.mk "Speaker A" 15 20 "early"] ∧
      "[00:15] Speaker A: early" =
        "[" ++ pad2 (u.start / 60) ++ ":" ++ pad2 (u.start % 60) ++ "] "
          ++ u.speaker ++ ": " ++ u.text := by
  have H := formatter_lines_correct
    [⟨"Speaker B", 75, 80, "later"⟩, ⟨"Speaker A", 15, 20, "early"⟩]
  exact ⟨H.1, H.2.2.2.2 "[00:15] Speaker A: early" (by decide)⟩

/-- Three chunks of a 5000-character text at block size 2000. -/
theorem splitChunks_map_length_5000 (s : List Char) (h : s.length = 5000) :
    (splitChunks s 2000).map List.length = [2000, 2000, 1000] := by
  have h1 : s ≠ [] := by
    intro hs; rw [hs] at h; simp at h
  have h2 : s.drop 2000 ≠ [] := by
    intro hs
    have := congrArg List.length hs
    simp [List.length_drop, h] at this
  have h3 : (s.drop 2000).drop 2000 ≠ [] := by
    intro hs
    have := congrArg List.length hs
    simp [List.length_drop, h] at this
  have h4 : ((s.drop 2000).drop 2000).drop 2000 = [] := by
    rw [← List.length_eq_zero]
    simp [List.length_drop, h]
  rw [splitChunks_of_ne _ _ h1 (by norm_num),
    splitChunks_of_ne _ _ h2 (by norm_num),
    splitChunks_of_ne _ _ h3 (by norm_num),
    h4, splitChunks_nil]
  simp [List.length_take, List.length_drop, h]

/-- C8: For a summary text of exactly 5000 characters with
`chunkMaxChars = 2000`, the structured sink receives exactly 3 blocks of
lengths 2000, 2000, 1000 in that order, while the flat sink receives the
full 5000-character string unsplit; and in general, on every run that
reaches delivery, the flat sink receives the unchunked full summary text
and full transcript text as a single write. -/
theorem scenarioC_chunking (s : String) (cfg : Config) (o : Oracles)
    (t : Transcript) (hcfg : cfg.chunkMaxChars = 2000)
    (hlen : s.data.length = 5000) (hd : o.downloadOk = true)
    (htr : o.transcription = .ok t) (hsp : o.summaryProvider = .ok s) :
    (∃ p, (runPipeline cfg o).structured = some p ∧
      p.summaryBlocks.map List.length = [2000, 2000, 1000] ∧
      p.summaryBlocks.flatten = s.data ∧
    ∃ d, (runPipeline cfg o).flat = some d ∧
      d.summaryText = s ∧ d.transcriptText = format t) ∧
    (∀ (cfg2 : Config) (o2 : Oracles) (t2 : Transcript),
      o2.downloadOk = true → o2.transcription = .ok t2 →
      (runPipeline cfg2 o2).flat =
        some ⟨(summarize o2.summaryProvider).text, format t2⟩) := by
  constructor
  · refine ⟨⟨splitChunks s.data 2000, splitChunks (format t).data 2000⟩, ?_, ?_, ?_,
      ⟨s, format t⟩, ?_, rfl, rfl⟩
    · simp [runPipeline, hd, htr, hsp, summarize, SummaryResult.text, hcfg]
    · exact splitChunks_map_length_5000 s.data hlen
    · exact splitChunks_flatten s.data 2000 (by norm_num)
    · simp [runPipeline, hd, htr, hsp, summarize, SummaryResult.text]
  · intro cfg2 o2 t2 hd2 htr2
    simp [runPipeline, hd2, htr2]

/-- C8 witness: the scenario applied to a concrete 5000-character summary
text on a run with default configuration, and the general flat-sink
clause applied to a different run — chunk size 10, fallback summary —
whose flat document still carries the full unchunked texts. -/
theorem scenarioC_chunking_witness :
    (∃ p, (runPipeline {}
        ⟨true, .ok ⟨[], 82, 661000⟩,
          .ok (String.mk (List.replicate 5000 'a')), true, true⟩).structured = some p ∧
      p.summaryBlocks.map List.length = [2000, 2000, 1000] ∧
      p.summaryBlocks.flatten = (String.mk (List.replicate 5000 'a')).data ∧
    ∃ d, (runPipeline {}
        ⟨true, .ok ⟨[], 82, 661000⟩,
          .ok (String.mk (List.replicate 5000 'a')), true, true⟩).flat = some d ∧
      d.summaryText = String.mk (List.replicate 5000 'a') ∧
      d.transcriptText = format ⟨[], 82, 661000⟩) ∧
    (runPipeline ⟨30, 600, 10⟩
        ⟨true, .ok ⟨[], 82, 661000⟩, .error .timeout, true, true⟩).flat =
      some ⟨fallbackText, format ⟨[], 82, 661000⟩⟩ := by
  have H := scenarioC_chunking (String.mk (List.replicate 5000 'a')) {}
    ⟨true, .ok ⟨[], 82, 661000⟩,
      .ok (String.mk (List.replicate 5000 'a')), true, true⟩
    ⟨[], 82, 661000⟩ rfl
    (by show (List.replicate 5000 'a').length = 5000
        rw [List.length_replicate]) rfl rfl rfl
  exact ⟨H.1, H.2 ⟨30, 600, 10⟩
    ⟨true, .ok ⟨[], 82, 661000⟩, .error .timeout, true, true⟩
    ⟨[], 82, 661000⟩ rfl rfl⟩

/-- C5, as stated, is false of the workflow: the structured-sink (Notion)
delivery is not an ancestor of the source-file move, and in a run where
the Notion save fails (so never finishes successfully) the move still
executes — there is no join of the two delivery adapters before the
Lifecycle Manager. -/
theorem delivery_join_counterexample :
    isAncestor Node.saveToNotion Node.moveToCompleted = false ∧
    execOk (fun n => !(n == Node.saveToNotion)) 17 Node.moveToCompleted = true ∧
    execOk (fun n => !(n == Node.saveToNotion)) 17 Node.saveToNotion = false := by
  decide

/-- C5 amended: the two delivery paths run in parallel, but there is no
join before the source-file move: the move lies on the flat-sink
(Google Drive) path and executes only if that path's delivery succeeded,
while the structured-sink (Notion) delivery is not awaited — it is not
an ancestor of the move in the workflow graph. -/
theorem delivery_parallel_no_join (ok : Node → Bool)
    (h : execOk ok 17 Node.moveToCompleted = true) :
    ok Node.saveTextToGDrive = true ∧
    isAncestor Node.saveTextToGDrive Node.moveToCompleted = true ∧
    isAncestor Node.saveToNotion Node.moveToCompleted = false := by
  refine ⟨?_, by decide, by decide⟩
  simp [execOk, deps] at h
  tauto

/-- C5 amended witness: with every node succeeding, the move executes and
the flat-sink delivery flag is indeed set. -/
theorem delivery_parallel_no_join_witness :
    (fun _ : Node => true) Node.saveTextToGDrive = true ∧
    isAncestor Node.saveTextToGDrive Node.moveToCompleted = true ∧
    isAncestor Node.saveToNotion Node.moveToCompleted = false :=
  delivery_parallel_no_join (fun _ => true) (by decide)

set_option maxRecDepth 4000 in
/-- C9: A failure of the structured (Notion) sink never prevents the
source file from moving to Completed: the move lies on the flat-sink
(Google Drive) path, which runs in parallel with and independently of
the Notion path; when every node outside the Notion path succeeds, the
move to Completed executes, whatever the Notion nodes' outcomes. -/
theorem gdrive_path_independent_of_notion (ok : Node → Bool)
    (h : ∀ n, n ≠ Node.saveToNotion → n ≠ Node.buildNotionBlocks → ok n = true) :
    execOk ok 17 Node.moveToCompleted = true ∧
    isAncestor Node.saveToNotion Node.moveToCompleted = false ∧
    isAncestor Node.buildNotionBlocks Node.moveToCompleted = false := by
  refine ⟨?_, by decide, by decide⟩
  have h1 := h .trigger (by decide) (by decide)
  have h2 := h .downloadAudio (by decide) (by decide)
  have h3 := h .uploadToAssemblyAI (by decide) (by decide)
  have h4 := h .startTranscription (by decide) (by decide)
  have h5 := h .initializePolling (by decide) (by decide)
  have h6 := h .wait30 (by decide) (by decide)
  have h7 := h .getResult (by decide) (by decide)
  have h8 := h .checkStatus (by decide) (by decide)
  have h9 := h .processOpenAI (by decide) (by decide)
  have h10 := h .prepareData (by decide) (by decide)
  have h11 := h .createTextFileContent (by decide) (by decide)
  have h12 := h .convertToBinary (by decide) (by decide)
  have h13 := h .saveTextToGDrive (by decide) (by decide)
  have h14 := h .restoreFileId (by decide) (by decide)
  have h15 := h .moveToCompleted (by decide) (by decide)
  simp [execOk, deps, h1, h2, h3, h4, h5, h6, h7, h8, h9, h10, h11, h12,
    h13, h14, h15]

/-- C9 witness: with every node outside the Notion path succeeding and
the Notion save failing, the move to Completed still executes. -/
theorem gdrive_path_independent_of_notion_witness :
    execOk (fun n => !(n == Node.saveToNotion)) 17 Node.moveToCompleted = true ∧
    isAncestor Node.saveToNotion Node.moveToCompleted = false ∧
    isAncestor Node.buildNotionBlocks Node.moveToCompleted = false :=
  gdrive_path_independent_of_notion (fun n => !(n == Node.saveToNotion))
    (by decide)

/-- C10: No deduplication guard exists between detection and processing:
the trigger connects directly to the download step, every detection event
starts a full run, and the same source file detected twice is processed
twice, producing the same outputs twice. -/
theorem no_dedup_duplicate_processing (cfg : Config)
    (oracleOf : String → Oracles) (f : String) (events : List String) :
    deps Node.downloadAudio = [Node.trigger] ∧
    (processDetections cfg oracleOf events).length = events.length ∧
    processDetections cfg oracleOf [f, f] =
      [runPipeline cfg (oracleOf f), runPipeline cfg (oracleOf f)] ∧
    (processDetections cfg oracleOf [f, f]).map RunResult.structured =
      [(runPipeline cfg (oracleOf f)).structured,
       (runPipeline cfg (oracleOf f)).structured] ∧
    (processDetections cfg oracleOf [f, f]).map RunResult.flat =
      [(runPipeline cfg (oracleOf f)).flat,
       (runPipeline cfg (oracleOf f)).flat] := by
  refine ⟨rfl, ?_, rfl, rfl, rfl⟩
  simp [processDetections]

end IWatcher
